import Mathlib

/-!
Shallow embedding of `src/demo.py` (class `AudioWatermarker`): segmentation of
a waveform into fixed-length chunks, per-segment mel-spectrogram feature bytes,
RSA-PSS signing on the sign path and RSA-PSS verification on the verify path.

Modelling conventions:
* waveform samples are an arbitrary type `α` (the pipeline never inspects them,
  it only slices the list and feeds slices to the feature extractor);
* the Python float `segment_duration` is a rational and Python `int()` is
  truncation toward zero;
* Python exceptions are an explicit `Except PyError` result;
* the external libraries `librosa` (feature extraction) and `cryptography`
  (RSA-PSS) are not part of this repository's sources and are modelled from the
  spec, as documented on each such definition.
-/

/-- Python exceptions the embedded code can raise: `ValueError` (from `range`
with step `0` and from `np.concatenate` applied to an empty list),
`IndexError` (from `segment_signatures[i]`), and `InvalidSignature` (raised by
`public_key.verify` on a mismatch). -/
inductive PyError : Type
  | valueError : PyError
  | indexError : PyError
  | invalidSignature : PyError
  deriving DecidableEq

/-- Canonical byte serialization of a feature buffer (the payload that is
signed and verified). -/
abbrev Bytes : Type := List ℕ

/-- Modelled from the spec: an RSA key pair as produced by
`rsa.generate_private_key` of the external `cryptography` library. The spec
needs only that a signature made with a private key verifies exactly under the
matching public key, so a pair is identified by an abstract key identity; the
private and the public half of one generated pair share that identity. -/
structure KeyPair : Type where
  keyId : ℕ
  deriving DecidableEq

/-- Modelled from the spec: an RSA-PSS signature. It binds the identity of the
signing key and the exact message bytes; `salt` records the randomness of the
probabilistic PSS padding, so repeated signatures over the same message may
differ as byte strings while all of them verify. -/
structure Signature : Type where
  keyId : ℕ
  payload : Bytes
  salt : ℕ
  deriving DecidableEq

/-- Modelled from the spec: `private_key.sign(message, PSS(MGF1(SHA256), MAX_LENGTH), SHA256)`
(lines 41-48 of `demo.py`). The salt is drawn from the caller-supplied entropy
stream. -/
def KeyPair.pssSign (k : KeyPair) (message : Bytes) (salt : ℕ) : Signature :=
  ⟨k.keyId, message, salt⟩

/-- Modelled from the spec: `public_key.verify(signature, message, PSS(...), SHA256)`
(lines 73-81 of `demo.py`): returns unit when the signature was produced over
exactly these message bytes by the private key matching this public key (any
salt), and raises `InvalidSignature` otherwise. -/
def KeyPair.pssVerify (k : KeyPair) (sig : Signature) (message : Bytes) :
    Except PyError Unit :=
  if sig.keyId = k.keyId ∧ sig.payload = message then Except.ok ()
  else Except.error PyError.invalidSignature

/-- The `AudioWatermarker` class state: the key pair generated in `__init__`
(so the held public key always matches the held private key), together with
the feature extractor. `mel segment sr` stands for
`librosa.feature.melspectrogram(y=segment, sr=sr).tobytes()` — modelled from
the spec as an arbitrary pure function of the segment samples and the sample
rate, because `librosa` is an external dependency; the spec requires of it only
determinism, which any Lean function has. -/
structure AudioWatermarker (α : Type) : Type where
  keys : KeyPair
  mel : List α → ℤ → Bytes

/-- Python `int()` applied to a (rational-valued) float: truncation toward
zero. -/
def pyInt (q : ℚ) : ℤ :=
  q.num.tdiv (q.den : ℤ)

/-- Lines 26 and 64 of `demo.py`: `segment_length = int(segment_duration * sr)`. -/
def segmentLength (segment_duration : ℚ) (sr : ℤ) : ℤ :=
  pyInt (segment_duration * (sr : ℚ))

/-- Number of iterations of Python `range(0, n, L)` for a positive step `L`,
i.e. the ceiling of `n / L` (and `0` when `L = 0`, a case both pipeline
functions guard against). -/
def numChunks (n L : ℕ) : ℕ :=
  (n + L - 1) / L

/-- The segmentation loop shared by the sign path (lines 31-32 of `demo.py`)
and the verify path (lines 67-68):
`for start in range(0, len(w), L): segment = w[start : start + L]` —
the list of slices of `w` starting at `0, L, 2L, ...`. -/
def chunks {α : Type} (w : List α) (L : ℕ) : List (List α) :=
  (List.range (numChunks w.length L)).map (fun i => (w.drop (i * L)).take L)

/-- Python `enumerate` folded into a map: apply `f` to each element together
with its index, indices starting at `k`. -/
def mapWithIndex {α β : Type} (f : ℕ → α → β) : ℕ → List α → List β
  | _, [] => []
  | k, a :: as => f k a :: mapWithIndex f (k + 1) as

/-- Lines 35-38 of `demo.py` (sign path): compute the mel spectrogram of one
segment and serialize it to the bytes that get signed. -/
def signPathSegmentBytes {α : Type} (wm : AudioWatermarker α) (segment : List α)
    (sr : ℤ) : Bytes :=
  wm.mel segment sr

/-- Lines 69-70 of `demo.py` (verify path): compute the mel spectrogram of one
segment and serialize it to the bytes the signature is checked against —
textually the same computation as on the sign path. -/
def verifyPathSegmentBytes {α : Type} (wm : AudioWatermarker α) (segment : List α)
    (sr : ℤ) : Bytes :=
  wm.mel segment sr

/-- Lines 22-56 of `demo.py`, `AudioWatermarker.segment_and_sign_audio`:
chunk the waveform, sign each chunk's feature bytes, collect the unmodified
chunks, and reconstruct the waveform with `np.concatenate`. A zero
`segment_length` makes `range` raise `ValueError`; a negative one makes the
loop run zero times; `np.concatenate` on an empty segment list raises
`ValueError`. `salts` supplies the PSS padding randomness for each segment
index. -/
def segment_and_sign_audio {α : Type} (wm : AudioWatermarker α)
    (audio_data : List α) (sr : ℤ) (segment_duration : ℚ) (salts : ℕ → ℕ) :
    Except PyError (List α × List Signature) :=
  let segment_length := segmentLength segment_duration sr
  if segment_length = 0 then Except.error PyError.valueError
  else
    let signed_segments :=
      if segment_length < 0 then [] else chunks audio_data segment_length.toNat
    let segment_signatures :=
      mapWithIndex
        (fun i segment => wm.keys.pssSign (signPathSegmentBytes wm segment sr) (salts i))
        0 signed_segments
    if signed_segments.isEmpty then Except.error PyError.valueError
    else Except.ok (signed_segments.flatten, segment_signatures)

/-- Body of the `try` block on lines 72-81 of `demo.py` for segment index `i`:
look up `segment_signatures[i]` (raising `IndexError` when out of range) and
check it against the recomputed feature bytes of the segment (raising
`InvalidSignature` on a mismatch). -/
def verifySegmentStep {α : Type} (wm : AudioWatermarker α)
    (segment_signatures : List Signature) (i : ℕ) (segment : List α) (sr : ℤ) :
    Except PyError Unit :=
  match segment_signatures.get? i with
  | none => Except.error PyError.indexError
  | some sig => wm.keys.pssVerify sig (verifyPathSegmentBytes wm segment sr)

/-- Lines 72-84 of `demo.py`: the `try`/`except` around one segment's
verification — `True` when the try block succeeds, `False` when any exception
is caught. -/
def segmentVerdict {α : Type} (wm : AudioWatermarker α)
    (segment_signatures : List Signature) (i : ℕ) (segment : List α) (sr : ℤ) :
    Bool :=
  match verifySegmentStep wm segment_signatures i segment sr with
  | Except.ok _ => true
  | Except.error _ => false

/-- Lines 58-86 of `demo.py`, `AudioWatermarker.verify_audio_segments`:
chunk the waveform exactly as the sign path does and collect one boolean per
chunk. A zero `segment_length` makes `range` raise `ValueError`; otherwise the
function always returns the list of per-segment verdicts. -/
def verify_audio_segments {α : Type} (wm : AudioWatermarker α)
    (signed_waveform : List α) (sr : ℤ) (segment_signatures : List Signature)
    (segment_duration : ℚ) :
    Except PyError (List Bool) :=
  let segment_length := segmentLength segment_duration sr
  if segment_length = 0 then Except.error PyError.valueError
  else
    let segs :=
      if segment_length < 0 then [] else chunks signed_waveform segment_length.toNat
    Except.ok
      (mapWithIndex
        (fun i segment => segmentVerdict wm segment_signatures i segment sr)
        0 segs)

/-- Concrete feature extractor for closed test inputs: the identity
serialization of a segment of naturals. -/
def melId : List ℕ → ℤ → Bytes :=
  fun segment _ => segment

/-- Concrete watermarker instance over natural-number samples, used by the
closed witness and counterexample statements. -/
def wmId : AudioWatermarker ℕ :=
  ⟨⟨0⟩, melId⟩

/-- Constant entropy stream for closed test inputs. -/
def zeroSalts : ℕ → ℕ :=
  fun _ => 0

/-- Multiplying by one on the left leaves `segmentLength` at the sample rate:
`int(1.0 * sr) = sr`. -/
theorem segmentLength_one (sr : ℤ) : segmentLength 1 sr = sr := by
  unfold segmentLength pyInt
  rw [one_mul]
  rw [Rat.num_intCast, Rat.den_intCast]
  exact Int.tdiv_one sr

/-- Truncation of an integer-valued rational is that integer. -/
theorem pyInt_intCast (n : ℤ) : pyInt ((n : ℤ) : ℚ) = n := by
  unfold pyInt
  rw [Rat.num_intCast, Rat.den_intCast]
  exact Int.tdiv_one n

/-- Integer duration and sample rate give the exact product as segment length:
`int(d * sr) = d * sr`. -/
theorem segmentLength_intCast (d sr : ℤ) : segmentLength (d : ℚ) sr = d * sr := by
  unfold segmentLength
  rw [show ((d : ℚ)) * ((sr : ℤ) : ℚ) = ((d * sr : ℤ) : ℚ) by push_cast; ring]
  exact pyInt_intCast _

/-- Truncation toward zero of a nonpositive rational is nonpositive. -/
theorem pyInt_nonpos {q : ℚ} (h : q ≤ 0) : pyInt q ≤ 0 := by
  have h1 : q.num ≤ 0 := Rat.num_nonpos.mpr h
  have h2 : (0 : ℤ) ≤ (q.den : ℤ) := Int.natCast_nonneg q.den
  have h3 : (0 : ℤ) ≤ -q.num := by omega
  have h4 : (0 : ℤ) ≤ (-q.num).tdiv (q.den : ℤ) := Int.tdiv_nonneg h3 h2
  have h5 : (-q.num).tdiv (q.den : ℤ) = -(q.num.tdiv (q.den : ℤ)) :=
    Int.neg_tdiv q.num (q.den : ℤ)
  unfold pyInt
  omega

/-- Nonpositive sample rate and positive duration give a nonpositive segment
length. -/
theorem segmentLength_nonpos {sr : ℤ} {d : ℚ} (hsr : sr ≤ 0) (hd : 0 < d) :
    segmentLength d sr ≤ 0 := by
  apply pyInt_nonpos
  have h1 : ((sr : ℚ)) ≤ 0 := Int.cast_nonpos.mpr hsr
  exact mul_nonpos_iff.mpr (Or.inl ⟨le_of_lt hd, h1⟩)

/-- No samples means no loop iterations: `numChunks 0 L = 0`. -/
theorem numChunks_zero (L : ℕ) : numChunks 0 L = 0 := by
  unfold numChunks
  rcases Nat.eq_zero_or_pos L with h | h
  · simp [h]
  · exact Nat.div_eq_of_lt (by omega)

/-- Ceiling division unfolded once: for a nonempty waveform,
`numChunks n L = (n - 1) / L + 1`. -/
theorem numChunks_succ (n L : ℕ) (hL : 0 < L) (hn : 0 < n) :
    numChunks n L = (n - 1) / L + 1 := by
  unfold numChunks
  rw [show n + L - 1 = (n - 1) + L by omega, Nat.add_div_right _ hL]

/-- A nonempty waveform yields at least one chunk. -/
theorem numChunks_pos (n L : ℕ) (hL : 0 < L) (hn : 0 < n) : 0 < numChunks n L := by
  rw [numChunks_succ n L hL hn]
  exact Nat.succ_pos _

/-- Dropping one chunk's worth of samples drops exactly one chunk. -/
theorem numChunks_drop (n L : ℕ) (hL : 0 < L) (hn : 0 < n) :
    numChunks (n - L) L = numChunks n L - 1 := by
  rcases le_or_lt n L with h | h
  · rw [Nat.sub_eq_zero_of_le h, numChunks_zero, numChunks_succ n L hL hn,
      Nat.div_eq_of_lt (by omega)]
  · rw [numChunks_succ (n - L) L hL (by omega), numChunks_succ n L hL hn,
      show n - 1 = (n - L - 1) + L by omega, Nat.add_div_right _ hL,
      Nat.add_sub_cancel]

/-- Every chunk index addresses a sample strictly inside the waveform. -/
theorem chunk_start_lt {n L i : ℕ} (hL : 0 < L) (h : i < numChunks n L) :
    i * L < n := by
  have hn : 0 < n := by
    by_contra hc
    push_neg at hc
    have hn0 : n = 0 := by omega
    rw [hn0, numChunks_zero] at h
    omega
  rw [numChunks_succ n L hL hn] at h
  have h1 : i ≤ (n - 1) / L := by omega
  have h2 : i * L ≤ n - 1 := (Nat.le_div_iff_mul_le hL).mp h1
  omega

/-- The chunks jointly cover the waveform: `n ≤ numChunks n L * L`. -/
theorem le_numChunks_mul (n L : ℕ) (hL : 0 < L) : n ≤ numChunks n L * L := by
  rcases Nat.eq_zero_or_pos n with hn | hn
  · simp [hn]
  · rw [numChunks_succ n L hL hn, Nat.add_mul, one_mul]
    have h1 := Nat.div_add_mod (n - 1) L
    have h2 : (n - 1) % L < L := Nat.mod_lt _ hL
    have h3 : (n - 1) / L * L = L * ((n - 1) / L) := Nat.mul_comm _ _
    omega

/-- The number of chunks produced by the segmentation loop. -/
theorem length_chunks {α : Type} (w : List α) (L : ℕ) :
    (chunks w L).length = numChunks w.length L := by
  simp [chunks]

/-- The chunk at index `i` is the slice `w[i*L : i*L + L]`. -/
theorem chunks_get? {α : Type} (w : List α) (L : ℕ) {i : ℕ}
    (h : i < numChunks w.length L) :
    (chunks w L).get? i = some ((w.drop (i * L)).take L) := by
  unfold chunks
  rw [List.get?_map, List.get?_range h]
  rfl

/-- An empty waveform produces no chunks. -/
theorem chunks_nil {α : Type} (L : ℕ) : chunks ([] : List α) L = [] := by
  unfold chunks
  rw [show ([] : List α).length = 0 from rfl, numChunks_zero]
  rfl

/-- Unfolding of the segmentation loop on a nonempty waveform: the first chunk
is `w[0 : L]`, the rest segments the remainder. -/
theorem chunks_cons_eq {α : Type} (w : List α) (L : ℕ) (hL : 0 < L)
    (hw : w ≠ []) :
    chunks w L = w.take L :: chunks (w.drop L) L := by
  have hn : 0 < w.length := List.length_pos.mpr hw
  unfold chunks
  have hN : numChunks w.length L = numChunks (w.drop L).length L + 1 := by
    rw [List.length_drop, numChunks_drop w.length L hL hn]
    have := numChunks_pos w.length L hL hn
    omega
  rw [hN, List.range_succ_eq_map, List.map_cons]
  congr 1
  · simp
  · rw [List.map_map]
    congr 1
    funext i
    simp only [Function.comp]
    rw [List.drop_drop, show Nat.succ i * L = L + i * L by
      rw [Nat.succ_mul, Nat.add_comm]]

/-- Concatenating the chunks gives back the waveform (the reconstruction step
`np.concatenate(signed_segments)`). -/
theorem chunks_flatten {α : Type} (L : ℕ) (hL : 0 < L) (w : List α) :
    (chunks w L).flatten = w := by
  generalize hN : numChunks w.length L = N
  induction N generalizing w with
  | zero =>
    have hw : w = [] := by
      by_contra h
      have := numChunks_pos w.length L hL (List.length_pos.mpr h)
      omega
    subst hw
    rw [chunks_nil]
    rfl
  | succ N ih =>
    have hw : w ≠ [] := by
      intro h
      subst h
      rw [show ([] : List α).length = 0 from rfl, numChunks_zero] at hN
      omega
    rw [chunks_cons_eq w L hL hw, List.flatten_cons]
    rw [ih (w.drop L) ?_]
    · exact List.take_append_drop L w
    · rw [List.length_drop, numChunks_drop w.length L hL (List.length_pos.mpr hw)]
      omega

/-- Indexing an indexed map: the element at position `i` is `f` applied to the
shifted index and the underlying element. -/
theorem mapWithIndex_get? {α β : Type} (f : ℕ → α → β) :
    ∀ (k : ℕ) (l : List α) (i : ℕ),
      (mapWithIndex f k l).get? i = (l.get? i).map (f (k + i)) := by
  intro k l
  induction l generalizing k with
  | nil =>
    intro i
    simp [mapWithIndex]
  | cons a as ih =>
    intro i
    cases i with
    | zero => simp [mapWithIndex]
    | succ j =>
      simp only [mapWithIndex, List.get?]
      rw [ih (k + 1) j, show k + 1 + j = k + (j + 1) by omega]

/-- An indexed map preserves length. -/
theorem mapWithIndex_length {α β : Type} (f : ℕ → α → β) :
    ∀ (k : ℕ) (l : List α), (mapWithIndex f k l).length = l.length := by
  intro k l
  induction l generalizing k with
  | nil => rfl
  | cons a as ih => simp [mapWithIndex, ih]

/-- Success path of the sign call: for a positive segment length and a
nonempty waveform, `segment_and_sign_audio` returns the concatenation of the
chunks together with one signature per chunk. -/
theorem sign_ok {α : Type} (wm : AudioWatermarker α) (w : List α) (sr : ℤ)
    (d : ℚ) (salts : ℕ → ℕ) (hw : w ≠ []) (hL : 1 ≤ segmentLength d sr) :
    segment_and_sign_audio wm w sr d salts =
      Except.ok (w,
        mapWithIndex
          (fun i segment => wm.keys.pssSign (signPathSegmentBytes wm segment sr) (salts i))
          0 (chunks w (segmentLength d sr).toNat)) := by
  have h0 : ¬ segmentLength d sr = 0 := by omega
  have h1 : ¬ segmentLength d sr < 0 := by omega
  have hLpos : 0 < (segmentLength d sr).toNat := by omega
  have hne : chunks w (segmentLength d sr).toNat ≠ [] := by
    intro hc
    have hlen := congrArg List.length hc
    rw [length_chunks] at hlen
    have hpos := numChunks_pos w.length (segmentLength d sr).toNat hLpos
      (List.length_pos.mpr hw)
    simp at hlen
    omega
  unfold segment_and_sign_audio
  simp only [if_neg h0, if_neg h1]
  rw [if_neg (by simpa [List.isEmpty_iff] using hne)]
  rw [chunks_flatten _ hLpos w]

/-- Success path of the verify call: for a positive segment length,
`verify_audio_segments` returns one verdict per chunk. -/
theorem verify_ok {α : Type} (wm : AudioWatermarker α) (w : List α) (sr : ℤ)
    (sigs : List Signature) (d : ℚ) (hL : 1 ≤ segmentLength d sr) :
    verify_audio_segments wm w sr sigs d =
      Except.ok
        (mapWithIndex (fun i segment => segmentVerdict wm sigs i segment sr) 0
          (chunks w (segmentLength d sr).toNat)) := by
  have h0 : ¬ segmentLength d sr = 0 := by omega
  have h1 : ¬ segmentLength d sr < 0 := by omega
  unfold verify_audio_segments
  simp only [if_neg h0, if_neg h1]

/-- C1: for every waveform with at least one sample and every sample rate and
segment duration whose derived segment length `int(segment_duration * sr)` is
at least 1, signing with `segment_and_sign_audio` and verifying the produced
signatures on the same waveform with `verify_audio_segments`, using the same
watermarker (whose public key matches its private key by construction) and the
identical segment duration, yields a verification result consisting entirely
of `true`, with exactly one boolean per chunk. -/
theorem sign_then_verify_all_true {α : Type} (wm : AudioWatermarker α)
    (w : List α) (sr : ℤ) (d : ℚ) (salts : ℕ → ℕ)
    (hw : w ≠ []) (hL : 1 ≤ segmentLength d sr) :
    ∃ sigs : List Signature,
      segment_and_sign_audio wm w sr d salts = Except.ok (w, sigs) ∧
      verify_audio_segments wm w sr sigs d =
        Except.ok
          (List.replicate (chunks w (segmentLength d sr).toNat).length true) := by
  refine ⟨_, sign_ok wm w sr d salts hw hL, ?_⟩
  rw [verify_ok wm w sr _ d hL]
  congr 1
  apply List.eq_replicate_iff.mpr
  refine ⟨mapWithIndex_length _ _ _, ?_⟩
  intro b hb
  rw [List.mem_iff_get?] at hb
  obtain ⟨i, hi⟩ := hb
  rw [mapWithIndex_get?] at hi
  cases hseg : (chunks w (segmentLength d sr).toNat).get? i with
  | none => rw [hseg] at hi; simp at hi
  | some seg =>
    rw [hseg] at hi
    simp only [Nat.zero_add, Option.map_some', Option.some_inj] at hi
    subst hi
    unfold segmentVerdict verifySegmentStep
    rw [mapWithIndex_get?, Nat.zero_add, hseg]
    simp [KeyPair.pssVerify, KeyPair.pssSign, signPathSegmentBytes,
      verifyPathSegmentBytes]

/-- C1 witness: a five-sample waveform at sample rate 2 with the default
segment duration 1.0 (three chunks of lengths 2, 2, 1). -/
theorem sign_then_verify_all_true_witness :
    (([3, 4, 5, 6, 7] : List ℕ) ≠ [] ∧ 1 ≤ segmentLength 1 2) ∧
    (∃ sigs : List Signature,
      segment_and_sign_audio wmId [3, 4, 5, 6, 7] 2 1 zeroSalts =
        Except.ok ([3, 4, 5, 6, 7], sigs) ∧
      verify_audio_segments wmId [3, 4, 5, 6, 7] 2 sigs 1 =
        Except.ok
          (List.replicate
            (chunks ([3, 4, 5, 6, 7] : List ℕ) (segmentLength 1 2).toNat).length
            true)) :=
  ⟨⟨by decide, by rw [segmentLength_one]; decide⟩,
    sign_then_verify_all_true wmId [3, 4, 5, 6, 7] 2 1 zeroSalts (by decide)
      (by rw [segmentLength_one]; decide)⟩

/-- C2 counterexample: contrary to the claim's "including the empty waveform",
on the empty waveform the sign call returns no reconstructed waveform at all —
it fails with `ValueError` (sample rate 4, default segment duration 1.0). -/
theorem sign_empty_waveform_returns_error :
    segment_and_sign_audio wmId [] 4 1 zeroSalts =
      Except.error PyError.valueError := by
  unfold segment_and_sign_audio
  rw [segmentLength_one]
  norm_num [chunks_nil]

/-- C2 amended: for every nonempty waveform (and positive segment length) the
sign call returns successfully and the reconstructed waveform is
sample-for-sample identical to the input — the sign path never alters the
audio samples; on the empty waveform the call raises `ValueError` instead of
returning, so the identity holds for every waveform on which the call returns
at all. -/
theorem sign_reconstructs_input {α : Type} (wm : AudioWatermarker α)
    (w : List α) (sr : ℤ) (d : ℚ) (salts : ℕ → ℕ)
    (hw : w ≠ []) (hL : 1 ≤ segmentLength d sr) :
    ∃ sigs : List Signature,
      segment_and_sign_audio wm w sr d salts = Except.ok (w, sigs) :=
  ⟨_, sign_ok wm w sr d salts hw hL⟩

/-- C2 amended witness: a three-sample waveform at sample rate 2. -/
theorem sign_reconstructs_input_witness :
    (([8, 9, 10] : List ℕ) ≠ [] ∧ 1 ≤ segmentLength 1 2) ∧
    (∃ sigs : List Signature,
      segment_and_sign_audio wmId [8, 9, 10] 2 1 zeroSalts =
        Except.ok ([8, 9, 10], sigs)) :=
  ⟨⟨by decide, by rw [segmentLength_one]; decide⟩,
    sign_reconstructs_input wmId [8, 9, 10] 2 1 zeroSalts (by decide)
      (by rw [segmentLength_one]; decide)⟩

/-- C3: feature extraction is deterministic — the feature-byte computation of
the sign path (lines 35-38 of `demo.py`) and the feature-byte computation of
the verify path (lines 69-70) are one and the same pure function of the
segment samples and the sample rate, so any two computations on the same
segment and rate, whether on the sign path or the verify path, produce
byte-identical output. -/
theorem feature_bytes_deterministic {α : Type} (wm : AudioWatermarker α)
    (segment : List α) (sr : ℤ) :
    signPathSegmentBytes wm segment sr = verifyPathSegmentBytes wm segment sr :=
  rfl

/-- C4: for a positive segment length `L` the chunking used by both the sign
path and the verify path produces the slices `w[i*L : i*L + L]` in
left-to-right index order — contiguous and non-overlapping, as witnessed by
the fact that concatenating them in order gives back `w`; the number of chunks
is the ceiling `(len w + L - 1) / L` of `len w / L`, and every chunk has
length exactly `L` except possibly the final one, whose length is the
remainder `len w - i * L`. -/
theorem chunking_spec {α : Type} (w : List α) (L : ℕ) (hL : 1 ≤ L) :
    (chunks w L).length = (w.length + L - 1) / L ∧
    (chunks w L).flatten = w ∧
    (∀ i, i < (w.length + L - 1) / L →
      (chunks w L).get? i = some ((w.drop (i * L)).take L) ∧
      ((w.drop (i * L)).take L).length =
        (if i + 1 = (w.length + L - 1) / L then w.length - i * L else L)) := by
  have hLpos : 0 < L := hL
  have hN : numChunks w.length L = (w.length + L - 1) / L := rfl
  refine ⟨?_, chunks_flatten L hLpos w, ?_⟩
  · rw [length_chunks, hN]
  · intro i hi
    have hi' : i < numChunks w.length L := by omega
    refine ⟨chunks_get? w L hi', ?_⟩
    rw [List.length_take, List.length_drop]
    by_cases hlast : i + 1 = (w.length + L - 1) / L
    · rw [if_pos hlast]
      have hb := le_numChunks_mul w.length L hLpos
      have hNi : numChunks w.length L = i + 1 := by omega
      rw [hNi, Nat.succ_mul] at hb
      exact min_eq_right (by omega)
    · rw [if_neg hlast]
      have hsucc : i + 1 < numChunks w.length L := by omega
      have ha := chunk_start_lt hLpos hsucc
      rw [Nat.succ_mul] at ha
      exact min_eq_left (by omega)

/-- C4 witness: five samples with segment length 2 (chunks
`[1, 2], [3, 4], [5]`). -/
theorem chunking_spec_witness :
    (1 ≤ 2) ∧
    ((chunks ([1, 2, 3, 4, 5] : List ℕ) 2).length = (5 + 2 - 1) / 2 ∧
      (chunks ([1, 2, 3, 4, 5] : List ℕ) 2).flatten = [1, 2, 3, 4, 5] ∧
      (∀ i, i < (5 + 2 - 1) / 2 →
        (chunks ([1, 2, 3, 4, 5] : List ℕ) 2).get? i =
          some ((([1, 2, 3, 4, 5] : List ℕ).drop (i * 2)).take 2) ∧
        ((([1, 2, 3, 4, 5] : List ℕ).drop (i * 2)).take 2).length =
          (if i + 1 = (5 + 2 - 1) / 2 then 5 - i * 2 else 2))) :=
  ⟨by decide, chunking_spec [1, 2, 3, 4, 5] 2 (by decide)⟩

/-- C5: for every nonempty waveform (and positive segment length) the number
of signatures returned by the sign path equals the number of booleans returned
by the verify path on those signatures, and both equal the ceiling
`(len w + L - 1) / L` of `len w / L` for `L` the segment length. -/
theorem signature_count_invariant {α : Type} (wm : AudioWatermarker α)
    (w : List α) (sr : ℤ) (d : ℚ) (salts : ℕ → ℕ)
    (hw : w ≠ []) (hL : 1 ≤ segmentLength d sr) :
    ∃ (sigs : List Signature) (rs : List Bool),
      segment_and_sign_audio wm w sr d salts = Except.ok (w, sigs) ∧
      verify_audio_segments wm w sr sigs d = Except.ok rs ∧
      sigs.length = rs.length ∧
      sigs.length =
        (w.length + (segmentLength d sr).toNat - 1) / (segmentLength d sr).toNat := by
  refine ⟨_, _, sign_ok wm w sr d salts hw hL, verify_ok wm w sr _ d hL, ?_, ?_⟩
  · rw [mapWithIndex_length, mapWithIndex_length]
  · rw [mapWithIndex_length, length_chunks]
    rfl

/-- C5 witness: three samples at sample rate 2 (two chunks). -/
theorem signature_count_invariant_witness :
    (([4, 5, 6] : List ℕ) ≠ [] ∧ 1 ≤ segmentLength 1 2) ∧
    (∃ (sigs : List Signature) (rs : List Bool),
      segment_and_sign_audio wmId [4, 5, 6] 2 1 zeroSalts =
        Except.ok ([4, 5, 6], sigs) ∧
      verify_audio_segments wmId [4, 5, 6] 2 sigs 1 = Except.ok rs ∧
      sigs.length = rs.length ∧
      sigs.length = (3 + (segmentLength 1 2).toNat - 1) / (segmentLength 1 2).toNat) :=
  ⟨⟨by decide, by rw [segmentLength_one]; decide⟩,
    signature_count_invariant wmId [4, 5, 6] 2 1 zeroSalts (by decide)
      (by rw [segmentLength_one]; decide)⟩

/-- C6: `verify_audio_segments` never propagates an error for a signature
mismatch: for a positive segment length it returns `Except.ok` with exactly
one boolean per chunk; the boolean at position `i` is the verdict of the try
block for segment `i` alone, so a mismatch at segment `i` shows up as `false`
at position `i` (fourth conjunct) while the remaining positions stay the
verdicts of their own segments (third conjunct). -/
theorem verify_mismatch_reported_as_false {α : Type} (wm : AudioWatermarker α)
    (w : List α) (sr : ℤ) (sigs : List Signature) (d : ℚ)
    (hL : 1 ≤ segmentLength d sr) :
    ∃ rs : List Bool,
      verify_audio_segments wm w sr sigs d = Except.ok rs ∧
      rs.length = (chunks w (segmentLength d sr).toNat).length ∧
      (∀ i, rs.get? i =
        ((chunks w (segmentLength d sr).toNat).get? i).map
          (fun segment => segmentVerdict wm sigs i segment sr)) ∧
      (∀ i (segment : List α),
        verifySegmentStep wm sigs i segment sr =
          Except.error PyError.invalidSignature →
        segmentVerdict wm sigs i segment sr = false) := by
  refine ⟨_, verify_ok wm w sr sigs d hL, mapWithIndex_length _ _ _, ?_, ?_⟩
  · intro i
    rw [mapWithIndex_get?, Nat.zero_add]
  · intro i segment h
    unfold segmentVerdict
    rw [h]

/-- C6 witness: two one-sample chunks with two wrong signatures — both try
blocks raise `InvalidSignature`, both are caught as `false`. -/
theorem verify_mismatch_reported_as_false_witness :
    (1 ≤ segmentLength 1 1) ∧
    (∃ rs : List Bool,
      verify_audio_segments wmId [7, 8] 1
        [KeyPair.pssSign ⟨1⟩ [7] 0, KeyPair.pssSign ⟨1⟩ [8] 0] 1 =
        Except.ok rs ∧
      rs.length = (chunks ([7, 8] : List ℕ) (segmentLength 1 1).toNat).length ∧
      (∀ i, rs.get? i =
        ((chunks ([7, 8] : List ℕ) (segmentLength 1 1).toNat).get? i).map
          (fun segment =>
            segmentVerdict wmId
              [KeyPair.pssSign ⟨1⟩ [7] 0, KeyPair.pssSign ⟨1⟩ [8] 0] i segment 1)) ∧
      (∀ i (segment : List ℕ),
        verifySegmentStep wmId
          [KeyPair.pssSign ⟨1⟩ [7] 0, KeyPair.pssSign ⟨1⟩ [8] 0] i segment 1 =
          Except.error PyError.invalidSignature →
        segmentVerdict wmId
          [KeyPair.pssSign ⟨1⟩ [7] 0, KeyPair.pssSign ⟨1⟩ [8] 0] i segment 1 =
          false)) :=
  ⟨by rw [segmentLength_one],
    verify_mismatch_reported_as_false wmId [7, 8] 1
      [KeyPair.pssSign ⟨1⟩ [7] 0, KeyPair.pssSign ⟨1⟩ [8] 0] 1
      (by rw [segmentLength_one])⟩

/-- C7 counterexample: the claim fails at concrete inputs, in each of the ways
the amendment records. First, a signature-count mismatch on the verify path is
not fatal and is not surfaced before cryptographic work: with two chunks but
one supplied signature the call returns a normal result list — chunk 0 is
cryptographically verified (`true`) and the missing signature becomes `false`
via the caught `IndexError`. Second, a negative sample rate is not fatal on
the verify path either: the loop body never runs and the empty list is
returned without error. Third, the sign-path fatality needs the positive
duration: with duration `-1.0` and sample rate `-1` the segment length is `1`
and signing succeeds. Fourth, an extra supplied signature beyond the chunk
count is silently ignored, again without any error. -/
theorem config_error_counterexamples :
    verify_audio_segments wmId [0, 0] 1 [KeyPair.pssSign ⟨0⟩ [0] 0] 1 =
      Except.ok [true, false] ∧
    verify_audio_segments wmId [0, 0] (-2) [KeyPair.pssSign ⟨0⟩ [0] 0] 1 =
      Except.ok [] ∧
    segment_and_sign_audio wmId [5] (-1) (-1) zeroSalts =
      Except.ok ([5], [KeyPair.pssSign ⟨0⟩ [5] 0]) ∧
    verify_audio_segments wmId [5] 1
      [KeyPair.pssSign ⟨0⟩ [5] 0, KeyPair.pssSign ⟨9⟩ [9] 9] 1 =
      Except.ok [true] := by
  refine ⟨?_, ?_, ?_, ?_⟩
  · unfold verify_audio_segments
    rw [segmentLength_one]
    rfl
  · unfold verify_audio_segments
    rw [segmentLength_one]
    rfl
  · have hL3 : segmentLength (-1) (-1) = 1 := by
      rw [show (-1 : ℚ) = ((-1 : ℤ) : ℚ) by norm_num, segmentLength_intCast]
      decide
    unfold segment_and_sign_audio
    rw [hL3]
    rfl
  · unfold verify_audio_segments
    rw [segmentLength_one]
    rfl

/-- C7 amended: sample-rate configuration errors are fatal exactly as the code
guards them, and the signature count is not checked at all. In detail: a
sample rate ≤ 0 together with a positive segment duration makes the sign path
fail with `ValueError` before any signature is produced; on the verify path a
zero segment length is fatal with `ValueError`, while a negative segment
length returns the empty result list without error; and a mismatch between
the number of supplied signatures and the number of chunks on the verify path
is not fatal and is not surfaced before cryptographic work — for a positive
segment length the call returns exactly one boolean per chunk whatever the
number of supplied signatures, and appending extra signatures beyond a list
that already covers every chunk leaves the result unchanged (each missing
signature is reported as `false`, per C10). -/
theorem config_error_fatal {α : Type} (wm : AudioWatermarker α) (w : List α)
    (sr : ℤ) (d : ℚ) (salts : ℕ → ℕ) (sigs : List Signature) :
    (sr ≤ 0 → 0 < d →
      segment_and_sign_audio wm w sr d salts = Except.error PyError.valueError) ∧
    (segmentLength d sr = 0 →
      verify_audio_segments wm w sr sigs d = Except.error PyError.valueError) ∧
    (segmentLength d sr < 0 →
      verify_audio_segments wm w sr sigs d = Except.ok []) ∧
    (1 ≤ segmentLength d sr →
      ∃ rs : List Bool,
        verify_audio_segments wm w sr sigs d = Except.ok rs ∧
        rs.length = numChunks w.length (segmentLength d sr).toNat) ∧
    (1 ≤ segmentLength d sr →
      numChunks w.length (segmentLength d sr).toNat ≤ sigs.length →
      ∀ extra : List Signature,
        verify_audio_segments wm w sr (sigs ++ extra) d =
          verify_audio_segments wm w sr sigs d) := by
  refine ⟨?_, ?_, ?_, ?_, ?_⟩
  · intro hsr hd
    have hL : segmentLength d sr ≤ 0 := segmentLength_nonpos hsr hd
    unfold segment_and_sign_audio
    by_cases h0 : segmentLength d sr = 0
    · simp [h0]
    · have h1 : segmentLength d sr < 0 := by omega
      simp [if_neg h0, if_pos h1, mapWithIndex]
  · intro h0
    unfold verify_audio_segments
    simp [h0]
  · intro h1
    have h0 : ¬ segmentLength d sr = 0 := by omega
    unfold verify_audio_segments
    simp [if_neg h0, if_pos h1, mapWithIndex]
  · intro hL
    refine ⟨_, verify_ok wm w sr sigs d hL, ?_⟩
    rw [mapWithIndex_length, length_chunks]
  · intro hL hlen extra
    rw [verify_ok wm w sr (sigs ++ extra) d hL, verify_ok wm w sr sigs d hL]
    apply congrArg
    apply List.ext
    intro n
    rw [mapWithIndex_get?, mapWithIndex_get?, Nat.zero_add]
    cases hsn : (chunks w (segmentLength d sr).toNat).get? n with
    | none => rfl
    | some seg =>
      simp only [Option.map_some', Option.some_inj]
      have hn : n < numChunks w.length (segmentLength d sr).toNat := by
        obtain ⟨hlt, _⟩ := List.get?_eq_some.mp hsn
        rw [length_chunks] at hlt
        exact hlt
      unfold segmentVerdict verifySegmentStep
      rw [List.get?_append (by omega)]

/-- C7 amended witness: sample rate 0 with duration 1.0, a one-sample
waveform and an empty signature list — the sign conjunct and the
zero-segment-length verify conjunct have their antecedents satisfied here
(discharged in the first component); the remaining conjuncts are instantiated
at the same input, and their situations are exhibited concretely by the
counterexample theorem. -/
theorem config_error_fatal_witness :
    ((0 : ℤ) ≤ 0 ∧ (0 : ℚ) < 1 ∧ segmentLength 1 (0 : ℤ) = 0) ∧
    (((0 : ℤ) ≤ 0 → (0 : ℚ) < 1 →
        segment_and_sign_audio wmId [5] 0 1 zeroSalts =
          Except.error PyError.valueError) ∧
      (segmentLength 1 (0 : ℤ) = 0 →
        verify_audio_segments wmId [5] 0 [] 1 =
          Except.error PyError.valueError) ∧
      (segmentLength 1 (0 : ℤ) < 0 →
        verify_audio_segments wmId [5] 0 [] 1 = Except.ok []) ∧
      (1 ≤ segmentLength 1 (0 : ℤ) →
        ∃ rs : List Bool,
          verify_audio_segments wmId [5] 0 [] 1 = Except.ok rs ∧
          rs.length = numChunks 1 (segmentLength 1 (0 : ℤ)).toNat) ∧
      (1 ≤ segmentLength 1 (0 : ℤ) →
        numChunks 1 (segmentLength 1 (0 : ℤ)).toNat ≤
          ([] : List Signature).length →
        ∀ extra : List Signature,
          verify_audio_segments wmId [5] 0 ([] ++ extra) 1 =
            verify_audio_segments wmId [5] 0 [] 1)) :=
  ⟨⟨le_refl (0 : ℤ), by norm_num, by rw [segmentLength_one]⟩,
    config_error_fatal wmId [5] 0 1 zeroSalts []⟩

/-- C8: per-segment independence of verification — the boolean at position `i`
depends only on the samples of chunk `i` and on `signatures[i]`: two verify
calls whose waveforms agree on chunk `i` and whose signature lists agree at
index `i` (both waveforms having a chunk `i`) return result lists that agree
at position `i`, and that position is present in both. -/
theorem verify_per_segment_independence {α : Type} (wm : AudioWatermarker α)
    (w1 w2 : List α) (sr : ℤ) (d : ℚ) (sigs1 sigs2 : List Signature) (i : ℕ)
    (hL : 1 ≤ segmentLength d sr)
    (h1 : i < numChunks w1.length (segmentLength d sr).toNat)
    (h2 : i < numChunks w2.length (segmentLength d sr).toNat)
    (hseg : (chunks w1 (segmentLength d sr).toNat).get? i =
      (chunks w2 (segmentLength d sr).toNat).get? i)
    (hsig : sigs1.get? i = sigs2.get? i) :
    ∃ (rs1 rs2 : List Bool),
      verify_audio_segments wm w1 sr sigs1 d = Except.ok rs1 ∧
      verify_audio_segments wm w2 sr sigs2 d = Except.ok rs2 ∧
      rs1.get? i = rs2.get? i ∧ (∃ b : Bool, rs1.get? i = some b) := by
  refine ⟨_, _, verify_ok wm w1 sr sigs1 d hL, verify_ok wm w2 sr sigs2 d hL,
    ?_, ?_⟩
  · rw [mapWithIndex_get?, mapWithIndex_get?, Nat.zero_add, hseg]
    cases hs2 : (chunks w2 (segmentLength d sr).toNat).get? i with
    | none => rfl
    | some seg =>
      simp only [Option.map_some', Option.some_inj]
      unfold segmentVerdict verifySegmentStep
      rw [hsig]
  · rw [mapWithIndex_get?, Nat.zero_add,
      chunks_get? w1 (segmentLength d sr).toNat h1]
    exact ⟨_, rfl⟩

/-- C8 witness: two waveforms `[5, 1]` and `[5, 9]` agreeing on chunk 0 (one
sample per chunk at sample rate 1), with equal signature lists. -/
theorem verify_per_segment_independence_witness :
    (1 ≤ segmentLength 1 1 ∧
      0 < numChunks 2 (segmentLength 1 1).toNat ∧
      (chunks ([5, 1] : List ℕ) (segmentLength 1 1).toNat).get? 0 =
        (chunks ([5, 9] : List ℕ) (segmentLength 1 1).toNat).get? 0) ∧
    (∃ (rs1 rs2 : List Bool),
      verify_audio_segments wmId [5, 1] 1 [KeyPair.pssSign ⟨0⟩ [5] 0] 1 =
        Except.ok rs1 ∧
      verify_audio_segments wmId [5, 9] 1 [KeyPair.pssSign ⟨0⟩ [5] 0] 1 =
        Except.ok rs2 ∧
      rs1.get? 0 = rs2.get? 0 ∧ (∃ b : Bool, rs1.get? 0 = some b)) :=
  ⟨⟨by rw [segmentLength_one], by rw [segmentLength_one]; decide,
      by rw [segmentLength_one]; decide⟩,
    verify_per_segment_independence wmId [5, 1] [5, 9] 1 1
      [KeyPair.pssSign ⟨0⟩ [5] 0] [KeyPair.pssSign ⟨0⟩ [5] 0] 0
      (by rw [segmentLength_one]) (by rw [segmentLength_one]; decide)
      (by rw [segmentLength_one]; decide) (by rw [segmentLength_one]; decide)
      rfl⟩

/-- C9: on the empty waveform `segment_and_sign_audio` never returns a value:
for every watermarker, sample rate, segment duration and salt stream it fails
with `ValueError` — the segment loop yields no segments, so `np.concatenate`
is applied to an empty list and raises (and a zero segment length already
makes `range` itself raise the same exception). -/
theorem sign_empty_always_raises {α : Type} (wm : AudioWatermarker α) (sr : ℤ)
    (d : ℚ) (salts : ℕ → ℕ) :
    segment_and_sign_audio wm [] sr d salts = Except.error PyError.valueError := by
  unfold segment_and_sign_audio
  by_cases h0 : segmentLength d sr = 0
  · simp [h0]
  · by_cases h1 : segmentLength d sr < 0
    · simp [if_neg h0, if_pos h1, mapWithIndex]
    · simp [if_neg h0, if_neg h1, chunks_nil, mapWithIndex]

/-- C10: when fewer signatures than chunks are supplied, the verify call does
not raise and does not truncate: it still returns exactly one boolean per
chunk, and at every index at or beyond the number of supplied signatures the
boolean is `false` (the out-of-range signature lookup raises `IndexError`
inside the try block, which the blanket handler records as `false`). -/
theorem verify_short_signature_list {α : Type} (wm : AudioWatermarker α)
    (w : List α) (sr : ℤ) (d : ℚ) (sigs : List Signature)
    (hL : 1 ≤ segmentLength d sr)
    (hcount : sigs.length < numChunks w.length (segmentLength d sr).toNat) :
    ∃ rs : List Bool,
      verify_audio_segments wm w sr sigs d = Except.ok rs ∧
      rs.length = numChunks w.length (segmentLength d sr).toNat ∧
      ∀ i, sigs.length ≤ i → i < rs.length → rs.get? i = some false := by
  refine ⟨_, verify_ok wm w sr sigs d hL, ?_, ?_⟩
  · rw [mapWithIndex_length, length_chunks]
  · intro i hi hilen
    rw [mapWithIndex_length, length_chunks] at hilen
    rw [mapWithIndex_get?, Nat.zero_add, chunks_get? w _ hilen]
    have hnone : sigs.get? i = none := List.get?_eq_none.mpr hi
    unfold segmentVerdict verifySegmentStep
    rw [hnone]
    rfl

/-- C10 witness: two chunks, zero supplied signatures — both positions are
`false`. -/
theorem verify_short_signature_list_witness :
    (1 ≤ segmentLength 1 1 ∧
      ([] : List Signature).length < numChunks 2 (segmentLength 1 1).toNat) ∧
    (∃ rs : List Bool,
      verify_audio_segments wmId [7, 8] 1 [] 1 = Except.ok rs ∧
      rs.length = numChunks 2 (segmentLength 1 1).toNat ∧
      ∀ i, ([] : List Signature).length ≤ i → i < rs.length →
        rs.get? i = some false) :=
  ⟨⟨by rw [segmentLength_one], by rw [segmentLength_one]; decide⟩,
    verify_short_signature_list wmId [7, 8] 1 1 [] (by rw [segmentLength_one])
      (by rw [segmentLength_one]; decide)⟩
